import Mathlib

set_option maxRecDepth 4000

/-!
Verification of the external-process invocation core of the EPOQ image-trainer
shell (src/image-trainer/src-tauri/src/main.rs), shallowly embedded in Lean.

The embedding models:
  * Rust's `String::from_utf8_lossy` as `utf8Lossy` on byte lists;
  * `str::trim` as `trimS` (ASCII whitespace model);
  * `str::replace(pat, "")` for the Windows extended-length prefix as `stripExt`;
  * the spawn of one candidate interpreter as an environment function
    `Env : String → List String → SpawnResult` mapping (command, args) to
    either a captured `Output` or a launch error string;
  * `run_python` as the sequential fallback loop over `["python","python3","py"]`,
    plus a trace-instrumented variant `run_pythonT` that also records which
    candidates were invoked, so "no later candidate is tried" is statable;
  * the five Tauri command façades (`run_tabular_processor`, `run_check_gpu`,
    `get_system_info`, `check_dependencies`, `run_prediction`) over an `App`
    carrying the resolved resource directory and the spawn environment.
-/

namespace EPOQ

/-- The Unicode replacement character U+FFFD used by lossy UTF-8 decoding. -/
def replChar : Char := Char.ofNat 0xFFFD

/-- Is `b` a UTF-8 continuation byte (`0x80..=0xBF`)? -/
def isCont (b : Nat) : Bool := 0x80 ≤ b && b ≤ 0xBF

/-- Valid range for the first continuation byte, which depends on the lead byte
(WHATWG / Rust `core::str` ranges: `E0` narrows to `A0..=BF`, `ED` to `80..=9F`,
`F0` to `90..=BF`, `F4` to `80..=8F`). -/
def validB1 (b b1 : Nat) : Bool :=
  if b = 0xE0 then 0xA0 ≤ b1 && b1 ≤ 0xBF
  else if b = 0xED then 0x80 ≤ b1 && b1 ≤ 0x9F
  else if b = 0xF0 then 0x90 ≤ b1 && b1 ≤ 0xBF
  else if b = 0xF4 then 0x80 ≤ b1 && b1 ≤ 0x8F
  else isCont b1

/-- Scalar value of a 2-byte UTF-8 sequence. -/
def scalar2 (b b1 : Nat) : Char := Char.ofNat ((b - 0xC0) * 0x40 + (b1 - 0x80))

/-- Scalar value of a 3-byte UTF-8 sequence. -/
def scalar3 (b b1 b2 : Nat) : Char :=
  Char.ofNat ((b - 0xE0) * 0x1000 + (b1 - 0x80) * 0x40 + (b2 - 0x80))

/-- Scalar value of a 4-byte UTF-8 sequence. -/
def scalar4 (b b1 b2 b3 : Nat) : Char :=
  Char.ofNat ((b - 0xF0) * 0x40000 + (b1 - 0x80) * 0x1000 + (b2 - 0x80) * 0x40 + (b3 - 0x80))

/-- Fuelled body of the lossy decoder. Every step consumes at least one byte,
so fuel equal to the byte count never runs out; the `0`-fuel arm is dead code. -/
def utf8LossyF : Nat → List Nat → List Char
  | _, [] => []
  | 0, _ => []
  | n + 1, b :: bs =>
    if b ≤ 0x7F then Char.ofNat b :: utf8LossyF n bs
    else if 0xC2 ≤ b && b ≤ 0xDF then
      match bs with
      | [] => [replChar]
      | b1 :: rest =>
        if isCont b1 then scalar2 b b1 :: utf8LossyF n rest
        else replChar :: utf8LossyF n (b1 :: rest)
    else if 0xE0 ≤ b && b ≤ 0xEF then
      match bs with
      | [] => [replChar]
      | b1 :: rest =>
        if validB1 b b1 then
          match rest with
          | [] => [replChar]
          | b2 :: rest2 =>
            if isCont b2 then scalar3 b b1 b2 :: utf8LossyF n rest2
            else replChar :: utf8LossyF n (b2 :: rest2)
        else replChar :: utf8LossyF n (b1 :: rest)
    else if 0xF0 ≤ b && b ≤ 0xF4 then
      match bs with
      | [] => [replChar]
      | b1 :: rest =>
        if validB1 b b1 then
          match rest with
          | [] => [replChar]
          | b2 :: rest2 =>
            if isCont b2 then
              match rest2 with
              | [] => [replChar]
              | b3 :: rest3 =>
                if isCont b3 then scalar4 b b1 b2 b3 :: utf8LossyF n rest3
                else replChar :: utf8LossyF n (b3 :: rest3)
            else replChar :: utf8LossyF n (b2 :: rest2)
        else replChar :: utf8LossyF n (b1 :: rest)
    else replChar :: utf8LossyF n bs

/-- Rust `String::from_utf8_lossy`: decode a byte list to characters, replacing
each maximal invalid subpart by one `replChar`, never failing. -/
def utf8Lossy (l : List Nat) : List Char := utf8LossyF l.length l

/-- Decoded text of a byte stream, as a `String`. -/
def decodeLossy (bytes : List Nat) : String := ⟨utf8Lossy bytes⟩

/-- ASCII whitespace, modelling the characters Rust's `str::trim` strips in the
outputs this program handles. -/
def isWS (c : Char) : Bool := c = ' ' || c = '\t' || c = '\n' || c = '\r'

/-- Strip leading and trailing whitespace from a character list. -/
def trimL (l : List Char) : List Char :=
  ((l.dropWhile isWS).reverse.dropWhile isWS).reverse

/-- Rust `str::trim` on the string level. -/
def trimS (s : String) : String := ⟨trimL s.data⟩

/-- The Windows extended-length path prefix sequence the code removes:
the four characters of `\\?\`. -/
def extPat : List Char := ['\\', '\\', '?', '\\']

/-- Fuelled scan implementing `str::replace("\\\\?\\", "")`: left-to-right,
non-overlapping; each match of `extPat` is dropped, other characters kept.
The fuel bounds the number of scan steps; callers supply `l.length`. -/
def stripFuel : Nat → List Char → List Char
  | _, [] => []
  | 0, l => l
  | n + 1, c :: cs =>
    if (c :: cs).take 4 = extPat then stripFuel n (cs.drop 3)
    else c :: stripFuel n cs

/-- `str::replace("\\\\?\\", "")` on character lists. -/
def stripL (l : List Char) : List Char := stripFuel l.length l

/-- `path.to_string_lossy().to_string().replace("\\\\?\\", "")` from the
façades, on the string level. -/
def stripExt (s : String) : String := ⟨stripL s.data⟩

/-- `PathBuf::join`, modelled as string concatenation with a separator. -/
def joinPath (a b : String) : String := a ++ "/" ++ b

/-- The result of one launched process: exit status, optional numeric exit
code, and the raw captured output-stream bytes. -/
structure Output where
  success : Bool
  code : Option Int
  stdout : List Nat
  stderr : List Nat
deriving DecidableEq

/-- Result of attempting to spawn one candidate: captured output, or the
launch-error text (`e.to_string()`). -/
inductive SpawnResult where
  | ok (o : Output)
  | err (e : String)
deriving DecidableEq

/-- The spawn environment: what `app.shell().command(cmd).args(args).output()`
yields for each command name and argument list. -/
abbrev Env := String → List String → SpawnResult

/-- The fixed candidate interpreter list of `run_python`. -/
def cmds : List String := ["python", "python3", "py"]

/-- Error classification for a launched process that exited with failure
(the `else` branch of `run_python`): non-empty trimmed stderr text, else
non-empty trimmed stdout text, else a synthesized exit-code message with
`-1` substituted when no code is available. -/
def classifyErr (o : Output) : String :=
  if ¬(trimS (decodeLossy o.stderr)).data.isEmpty then decodeLossy o.stderr
  else if ¬(trimS (decodeLossy o.stdout)).data.isEmpty then decodeLossy o.stdout
  else "Exited with code: " ++ toString (o.code.getD (-1))

/-- The error text a candidate's attempt records into `last_err`. -/
def errText : SpawnResult → String
  | .ok o => classifyErr o
  | .err e => e

/-- The fallback loop of `run_python` over a candidate list, carrying
`last_err`, instrumented to also return the list of candidates invoked. -/
def goRun (env : Env) (args : List String) : List String → String → Except String String × List String
  | [], lastErr => (.error lastErr, [])
  | c :: rest, lastErr =>
    match env c args with
    | .ok o =>
      if o.success then (.ok (decodeLossy o.stdout), [c])
      else
        let r := goRun env args rest (classifyErr o)
        (r.1, c :: r.2)
    | .err e =>
      let r := goRun env args rest e
      (r.1, c :: r.2)

/-- `run_python` with the invocation trace. -/
def run_pythonT (env : Env) (args : List String) : Except String String × List String :=
  goRun env args cmds ""

/-- `run_python(app, args)`: try each candidate in order; first success wins,
otherwise the last recorded error is returned. -/
def run_python (env : Env) (args : List String) : Except String String :=
  (run_pythonT env args).1

/-- The application handle, reduced to what the façades consult: the resolved
resource directory (`Err` models `resource_dir()` failing, carrying
`e.to_string()`) and the spawn environment. -/
structure App where
  resource_dir : Except String String
  env : Env

/-- Resolved and prefix-stripped path of `tabular_processor.py`. -/
def tabular_script (dir : String) : String :=
  stripExt (joinPath (joinPath dir "python_backend") "tabular_processor.py")

/-- Argument list built by `run_tabular_processor`: script, `--action`,
`--file`, then the optional `--params` and `--out` pairs in that order. -/
def tabular_args (script file action : String) (params out : Option String) : List String :=
  [script, "--action", action, "--file", file]
    ++ (match params with | some p => ["--params", p] | none => [])
    ++ (match out with | some o => ["--out", o] | none => [])

/-- The `run_tabular_processor` Tauri command: builds the argument list and
returns `run_python`'s result unchanged. -/
def run_tabular_processor (app : App) (file action : String)
    (params out : Option String) : Except String String :=
  match app.resource_dir with
  | .error e => .error e
  | .ok dir => run_python app.env (tabular_args (tabular_script dir) file action params out)

/-- Resolved and prefix-stripped path of `check_gpu.py`. -/
def check_gpu_script (dir : String) : String :=
  stripExt (joinPath (joinPath dir "python_backend") "check_gpu.py")

/-- The `run_check_gpu` Tauri command: trims accepted output, labels errors. -/
def run_check_gpu (app : App) : Except String String :=
  match app.resource_dir with
  | .error e => .error e
  | .ok dir =>
    match run_python app.env [check_gpu_script dir] with
    | .ok output => .ok (trimS output)
    | .error e => .error ("GPU detection failed: " ++ e)

/-- Resolved and prefix-stripped path of `system_info.py`. -/
def system_info_script (dir : String) : String :=
  stripExt (joinPath (joinPath dir "python_backend") "system_info.py")

/-- The `get_system_info` Tauri command: trims accepted output, labels errors. -/
def get_system_info (app : App) : Except String String :=
  match app.resource_dir with
  | .error e => .error e
  | .ok dir =>
    match run_python app.env [system_info_script dir] with
    | .ok output => .ok (trimS output)
    | .error e => .error ("System info failed: " ++ e)

/-- The inline `-c` probe script passed by `check_dependencies`. -/
def depScript : String :=
  "import sys, json, importlib.util; p = lambda x: importlib.util.find_spec(x) is not None; print(json.dumps(\x7b\x27python\x27: True, \x27executable\x27: sys.executable, \x27version\x27: sys.version.split()[0], \x27pandas\x27: p(\x27pandas\x27), \x27sklearn\x27: p(\x27sklearn\x27), \x27torch\x27: p(\x27torch\x27), \x27timm\x27: p(\x27timm\x27), \x27optuna\x27: p(\x27optuna\x27)\x7d))"

/-- Escape every double quote as `\"` (Rust `e.replace("\"", "\\\"")`). -/
def escQuote : List Char → List Char
  | [] => []
  | c :: cs => if c = '"' then '\\' :: '"' :: escQuote cs else c :: escQuote cs

/-- Replace every newline by a space (Rust `.replace("\n", " ")`). -/
def nlToSpace (l : List Char) : List Char :=
  l.map (fun c => if c = '\n' then ' ' else c)

/-- Sanitization applied to the failure text embedded in the synthetic JSON:
quotes escaped first, then newlines collapsed to spaces. -/
def sanitize (e : String) : String := ⟨nlToSpace (escQuote e.data)⟩

/-- The hand-built JSON document `check_dependencies` returns when the
orchestrator rejects. -/
def error_json (e : String) : String :=
  "\x7b\"python\": false, \"version\": null, \"pandas\": false, \"sklearn\": false, \"torch\": false, \"timm\": false, \"optuna\": false, \"error\": \"" ++ sanitize e ++ "\"\x7d"

/-- The `check_dependencies` Tauri command: trims accepted output; on
rejection still returns `Ok` with the synthetic JSON payload. -/
def check_dependencies (app : App) : Except String String :=
  match run_python app.env ["-c", depScript] with
  | .ok output => .ok (trimS output)
  | .error e => .ok (error_json e)

/-- Resolved and prefix-stripped path of `predict.py`. -/
def predict_script (dir : String) : String :=
  stripExt (joinPath (joinPath dir "python_backend") "predict.py")

/-- Argument list built by `run_prediction`: script then the four required
named flags. -/
def predict_args (script image model_path model_type classes : String) : List String :=
  [script, "--image", image, "--model_path", model_path,
   "--model_type", model_type, "--classes", classes]

/-- The `run_prediction` Tauri command: trims accepted output, labels errors. -/
def run_prediction (app : App) (image model_path model_type classes : String) :
    Except String String :=
  match app.resource_dir with
  | .error e => .error e
  | .ok dir =>
    match run_python app.env (predict_args (predict_script dir) image model_path model_type classes) with
    | .ok output => .ok (trimS output)
    | .error e => .error ("Prediction failed: " ++ e)

/-- Does this spawn attempt count as a failure for the fallback loop
(launch error, or ran but exited unsuccessfully)? -/
def isFail : SpawnResult → Bool
  | .ok o => !o.success
  | .err _ => true

/-- Text made of segments joined by occurrences of `extPat`: the general
shape of a string containing the extended-length prefix sequence at arbitrary
positions. -/
def joinWith : List (List Char) → List Char
  | [] => []
  | [p] => p
  | p :: ps => p ++ (extPat ++ joinWith ps)

/-- The same segments with every joining occurrence removed. -/
def flatCat : List (List Char) → List Char
  | [] => []
  | p :: ps => p ++ flatCat ps

/-- Environment where only `python` is missing; `python3` and `py` run
cleanly and print `hi`. -/
def env1 : Env := fun c _ =>
  if c = "python" then .err "nope" else .ok ⟨true, some 0, [104, 105], []⟩

/-- Output of the succeeding candidate in `env1`. -/
def o1 : Output := ⟨true, some 0, [104, 105], []⟩

/-- Environment where every candidate fails to launch with the same text. -/
def env2 : Env := fun _ _ => .err "boom"

/-- A failed process whose stderr is the single letter `e`. -/
def o3 : Output := ⟨false, some 2, [], [101]⟩

/-- Environment for the dependency-probe witness: nothing launches. -/
def env4 : Env := fun _ _ => .err "no python"

/-- App for the dependency-probe witness. -/
def app4 : App := ⟨.ok "R", env4⟩

/-- App whose interpreter runs cleanly and prints `x` plus a newline. -/
def app5 : App := ⟨.ok "R", fun _ _ => .ok ⟨true, some 0, [120, 10], []⟩⟩

/-- App where every candidate fails to launch with text `boom`. -/
def app6 : App := ⟨.ok "R", fun _ _ => .err "boom"⟩

/-- App for the argument-construction witness. -/
def app7 : App := ⟨.ok "R", fun _ _ => .err "x"⟩

/-- Environment whose candidate succeeds but emits an invalid leading byte. -/
def env8 : Env := fun _ _ => .ok ⟨true, some 0, [255, 104, 105], []⟩

/-- Output produced by `env8`. -/
def o8 : Output := ⟨true, some 0, [255, 104, 105], []⟩

/-- A failed process with no output at all and no numeric exit code. -/
def o9 : Output := ⟨false, none, [], []⟩

/- Lemmas about the fallback loop. -/

lemma goRun_nil (env : Env) (args : List String) (lastErr : String) :
    goRun env args [] lastErr = (.error lastErr, []) := rfl

lemma goRun_cons_ok_succ (env : Env) (args : List String) (c : String)
    (rest : List String) (lastErr : String) (o : Output)
    (h : env c args = .ok o) (hs : o.success = true) :
    goRun env args (c :: rest) lastErr = (.ok (decodeLossy o.stdout), [c]) := by
  simp [goRun, h, hs]

lemma goRun_cons_ok_fail (env : Env) (args : List String) (c : String)
    (rest : List String) (lastErr : String) (o : Output)
    (h : env c args = .ok o) (hs : o.success = false) :
    goRun env args (c :: rest) lastErr =
      ((goRun env args rest (classifyErr o)).1,
        c :: (goRun env args rest (classifyErr o)).2) := by
  simp [goRun, h, hs]

lemma goRun_cons_err (env : Env) (args : List String) (c : String)
    (rest : List String) (lastErr : String) (e : String)
    (h : env c args = .err e) :
    goRun env args (c :: rest) lastErr =
      ((goRun env args rest e).1, c :: (goRun env args rest e).2) := by
  simp [goRun, h]

/-- When every candidate fails, the loop visits all of them and ends with the
error text of the last attempt (`last_err` is overwritten at each step, which
is exactly a `foldl` that ignores its accumulator). -/
lemma goRun_allFail (env : Env) (args : List String) (cands : List String) :
    ∀ lastErr : String, (∀ c ∈ cands, isFail (env c args) = true) →
      goRun env args cands lastErr =
        (.error (cands.foldl (fun _ c => errText (env c args)) lastErr), cands) := by
  induction cands with
  | nil => intro lastErr _; rfl
  | cons c rest ih =>
    intro lastErr h
    have hc : isFail (env c args) = true := h c (by simp)
    have hrest : ∀ d ∈ rest, isFail (env d args) = true := by
      intro d hd; exact h d (by simp [hd])
    cases he : env c args with
    | ok o =>
      have hs : o.success = false := by
        have := hc; rw [he] at this; simpa [isFail] using this
      rw [goRun_cons_ok_fail env args c rest lastErr o he hs,
        ih (classifyErr o) hrest]
      simp [List.foldl, errText, he]
    | err e =>
      rw [goRun_cons_err env args c rest lastErr e he, ih e hrest]
      simp [List.foldl, errText, he]

/-- When the candidates before `c` all fail and `c` launches and exits
successfully, the loop stops at `c`: it returns `c`'s decoded stdout and has
invoked exactly the prefix up to and including `c`. -/
lemma goRun_firstOk (env : Env) (args : List String) (l₂ : List String)
    (c : String) (o : Output) (hok : env c args = .ok o) (hs : o.success = true) :
    ∀ (l₁ : List String) (lastErr : String),
      (∀ d ∈ l₁, isFail (env d args) = true) →
      goRun env args (l₁ ++ c :: l₂) lastErr = (.ok (decodeLossy o.stdout), l₁ ++ [c]) := by
  intro l₁
  induction l₁ with
  | nil =>
    intro lastErr _
    simpa using goRun_cons_ok_succ env args c l₂ lastErr o hok hs
  | cons d l₁' ih =>
    intro lastErr h
    have hd : isFail (env d args) = true := h d (by simp)
    have hrest : ∀ d' ∈ l₁', isFail (env d' args) = true := by
      intro d' hd'; exact h d' (by simp [hd'])
    cases he : env d args with
    | ok o' =>
      have hs' : o'.success = false := by
        have := hd; rw [he] at this; simpa [isFail] using this
      rw [List.cons_append,
        goRun_cons_ok_fail env args d (l₁' ++ c :: l₂) lastErr o' he hs',
        ih (classifyErr o') hrest]
      simp
    | err e =>
      rw [List.cons_append,
        goRun_cons_err env args d (l₁' ++ c :: l₂) lastErr e he, ih e hrest]
      simp

/-- If the loop ends in an error, every candidate it was given failed. -/
lemma goRun_error_allFail (env : Env) (args : List String) (cands : List String) :
    ∀ (lastErr e : String), (goRun env args cands lastErr).1 = .error e →
      ∀ c ∈ cands, isFail (env c args) = true := by
  induction cands with
  | nil => intro _ _ _ c hc; simp at hc
  | cons d rest ih =>
    intro lastErr e herr c hc
    cases he : env d args with
    | ok o =>
      cases hs : o.success with
      | true =>
        rw [goRun_cons_ok_succ env args d rest lastErr o he hs] at herr
        simp at herr
      | false =>
        rw [goRun_cons_ok_fail env args d rest lastErr o he hs] at herr
        rcases List.mem_cons.mp hc with hcd | hcr
        · subst hcd; simp [isFail, he, hs]
        · exact ih (classifyErr o) e herr c hcr
    | err e' =>
      rw [goRun_cons_err env args d rest lastErr e' he] at herr
      rcases List.mem_cons.mp hc with hcd | hcr
      · subst hcd; simp [isFail, he]
      · exact ih e' e herr c hcr

/- Lemmas about the error classification. -/

lemma str_eq_empty_iff (s : String) : s = "" ↔ s.data = [] := by
  cases s with
  | mk l =>
    constructor
    · intro h; rw [h]
    · intro h; rw [show l = [] from h]

lemma classifyErr_of_stderr (o : Output)
    (h : trimS (decodeLossy o.stderr) ≠ "") :
    classifyErr o = decodeLossy o.stderr := by
  have hne : ¬(trimS (decodeLossy o.stderr)).data.isEmpty = true := by
    rw [List.isEmpty_iff]
    intro hd
    exact h ((str_eq_empty_iff _).mpr hd)
  simp [classifyErr, hne]

lemma classifyErr_of_stdout (o : Output)
    (h1 : trimS (decodeLossy o.stderr) = "")
    (h2 : trimS (decodeLossy o.stdout) ≠ "") :
    classifyErr o = decodeLossy o.stdout := by
  have he : (trimS (decodeLossy o.stderr)).data.isEmpty = true := by
    rw [List.isEmpty_iff]
    exact (str_eq_empty_iff _).mp h1
  have hne : ¬(trimS (decodeLossy o.stdout)).data.isEmpty = true := by
    rw [List.isEmpty_iff]
    intro hd
    exact h2 ((str_eq_empty_iff _).mpr hd)
  simp [classifyErr, he, hne]

lemma classifyErr_of_empty (o : Output)
    (h1 : trimS (decodeLossy o.stderr) = "")
    (h2 : trimS (decodeLossy o.stdout) = "") :
    classifyErr o = "Exited with code: " ++ toString (o.code.getD (-1)) := by
  have he1 : (trimS (decodeLossy o.stderr)).data.isEmpty = true := by
    rw [List.isEmpty_iff]
    exact (str_eq_empty_iff _).mp h1
  have he2 : (trimS (decodeLossy o.stdout)).data.isEmpty = true := by
    rw [List.isEmpty_iff]
    exact (str_eq_empty_iff _).mp h2
  simp [classifyErr, he1, he2]

/-- C1: if some candidate launches and exits successfully while every earlier
candidate failed, `run_python` returns `Ok` with exactly that candidate's
decoded standard output (even if empty) and invokes no later candidate: the
trace is the prefix of `cmds` ending at that candidate. -/
theorem orchestrator_first_success (env : Env) (args : List String)
    (l₁ l₂ : List String) (c : String) (o : Output)
    (hsplit : cmds = l₁ ++ c :: l₂)
    (hfail : ∀ d ∈ l₁, isFail (env d args) = true)
    (hok : env c args = .ok o) (hsucc : o.success = true) :
    run_pythonT env args = (.ok (decodeLossy o.stdout), l₁ ++ [c]) := by
  unfold run_pythonT
  rw [hsplit]
  exact goRun_firstOk env args l₂ c o hok hsucc l₁ "" hfail

/-- Witness for C1: with `python` missing and `python3` succeeding with
output `hi`, the orchestrator returns `hi` and never invokes `py`. -/
theorem orchestrator_first_success_witness :
    run_pythonT env1 [] = (.ok "hi", ["python", "python3"]) := by
  have h := orchestrator_first_success env1 [] ["python"] ["py"] "python3" o1
    rfl (by decide) rfl rfl
  exact h

/-- C2: if every candidate fails (to launch, or by exit status), `run_python`
returns `Err` with the error text recorded for the last candidate `py`, after
having invoked all of `cmds`; and conversely an `Err` result only arises when
every candidate failed. -/
theorem orchestrator_all_fail :
    (∀ (env : Env) (args : List String),
      (∀ c ∈ cmds, isFail (env c args) = true) →
      run_pythonT env args = (.error (errText (env "py" args)), cmds)) ∧
    (∀ (env : Env) (args : List String) (e : String),
      run_python env args = .error e →
      ∀ c ∈ cmds, isFail (env c args) = true) := by
  constructor
  · intro env args h
    unfold run_pythonT
    rw [goRun_allFail env args cmds "" h]
    simp [cmds, List.foldl]
  · intro env args e herr c hc
    exact goRun_error_allFail env args cmds "" e herr c hc

/-- Witness for C2: when all three candidates fail to launch with text
`boom`, the result is `Err "boom"` and all of `cmds` were invoked. -/
theorem orchestrator_all_fail_witness :
    run_pythonT env2 [] = (.error "boom", cmds) := by
  have h := orchestrator_all_fail.1 env2 [] (by decide)
  exact h

/-- C3: the error message recorded for a launched process that exited with
failure is chosen by fixed priority: non-empty trimmed stderr text wins, else
non-empty trimmed stdout text, else a synthesized message naming the numeric
exit code. -/
theorem failure_message_priority (o : Output) :
    (trimS (decodeLossy o.stderr) ≠ "" → classifyErr o = decodeLossy o.stderr) ∧
    (trimS (decodeLossy o.stderr) = "" → trimS (decodeLossy o.stdout) ≠ "" →
      classifyErr o = decodeLossy o.stdout) ∧
    (trimS (decodeLossy o.stderr) = "" → trimS (decodeLossy o.stdout) = "" →
      classifyErr o = "Exited with code: " ++ toString (o.code.getD (-1))) :=
  ⟨classifyErr_of_stderr o, classifyErr_of_stdout o, classifyErr_of_empty o⟩

/-- Witness for C3: a process with stderr `e` records exactly that text. -/
theorem failure_message_priority_witness : classifyErr o3 = "e" := by
  have h := (failure_message_priority o3).1 (by decide)
  exact h

/-- C9: a failed process whose stderr and stdout both trim to empty and for
which no numeric exit code is available records exactly
`Exited with code: -1`. -/
theorem missing_code_message (o : Output) (hc : o.code = none)
    (h1 : trimS (decodeLossy o.stderr) = "")
    (h2 : trimS (decodeLossy o.stdout) = "") :
    classifyErr o = "Exited with code: -1" := by
  rw [classifyErr_of_empty o h1 h2, hc]
  rfl

/-- Witness for C9: a silent signal-terminated process records
`Exited with code: -1`. -/
theorem missing_code_message_witness : classifyErr o9 = "Exited with code: -1" := by
  have h := missing_code_message o9 rfl rfl rfl
  exact h

/-- C4: the dependency probe never returns an error: whatever the
orchestrator does, the result is `Ok`; and when the orchestrator rejects, the
payload is the hand-built JSON document with `python` false, all capability
flags false, `version` null, and the sanitized failure text in `error`. -/
theorem dependency_probe_never_errors :
    (∀ app : App, ∃ s, check_dependencies app = .ok s) ∧
    (∀ (app : App) (e : String),
      run_python app.env ["-c", depScript] = .error e →
      check_dependencies app = .ok (error_json e)) ∧
    (∀ e : String, error_json e =
      "\x7b\"python\": false, \"version\": null, \"pandas\": false, \"sklearn\": false, \"torch\": false, \"timm\": false, \"optuna\": false, \"error\": \"" ++ sanitize e ++ "\"\x7d") := by
  refine ⟨?_, ?_, fun _ => rfl⟩
  · intro app
    cases h : run_python app.env ["-c", depScript] with
    | ok s => exact ⟨trimS s, by simp [check_dependencies, h]⟩
    | error e => exact ⟨error_json e, by simp [check_dependencies, h]⟩
  · intro app e h
    simp [check_dependencies, h]

/-- Witness for C4: with no interpreter launching, the probe still returns
`Ok` with the synthetic JSON for the failure text. -/
theorem dependency_probe_never_errors_witness :
    check_dependencies app4 = .ok (error_json "no python") := by
  have h := dependency_probe_never_errors.2.1 app4 "no python" rfl
  exact h

/-- C7: with `params` and `out` absent the data-processing command builds
exactly `[script, "--action", action, "--file", file]`; the `--params` and
`--out` pairs are appended, in that order, only when present; and the façade
passes exactly this list to the orchestrator. -/
theorem tabular_argument_order (script file action : String) :
    tabular_args script file action none none =
      [script, "--action", action, "--file", file] ∧
    (∀ p, tabular_args script file action (some p) none =
      [script, "--action", action, "--file", file, "--params", p]) ∧
    (∀ o, tabular_args script file action none (some o) =
      [script, "--action", action, "--file", file, "--out", o]) ∧
    (∀ p o, tabular_args script file action (some p) (some o) =
      [script, "--action", action, "--file", file, "--params", p, "--out", o]) ∧
    (∀ (app : App) (f a : String) (params outp : Option String) (dir : String),
      app.resource_dir = .ok dir →
      run_tabular_processor app f a params outp =
        run_python app.env (tabular_args (tabular_script dir) f a params outp)) := by
  refine ⟨rfl, fun _ => rfl, fun _ => rfl, fun _ _ => rfl, ?_⟩
  intro app f a params outp dir h
  simp [run_tabular_processor, h]

/-- Witness for C7: at a concrete resolved directory the façade equals the
orchestrator on the built argument list. -/
theorem tabular_argument_order_witness :
    run_tabular_processor app7 "f" "a" none none =
      run_python app7.env (tabular_args (tabular_script "R") "f" "a" none none) := by
  have h := (tabular_argument_order "s" "f" "a").2.2.2.2 app7 "f" "a" none none "R" rfl
  exact h

/-- C8: output capture never fails on non-text bytes: a successful launch
always yields `Ok` with the totally decoded stdout text; every lone invalid
byte decodes to the replacement character, and every ASCII byte decodes to
itself. -/
theorem lossy_output_capture :
    (∀ (env : Env) (args : List String) (o : Output),
      env "python" args = .ok o → o.success = true →
      run_python env args = .ok (decodeLossy o.stdout)) ∧
    (∀ b : Fin 256, 0x80 ≤ b.val → utf8Lossy [b.val] = [replChar]) ∧
    (∀ b : Fin 128, utf8Lossy [b.val] = [Char.ofNat b.val]) := by
  refine ⟨?_, by decide, by decide⟩
  intro env args o hok hs
  unfold run_python run_pythonT
  rw [show cmds = "python" :: ["python3", "py"] from rfl,
    goRun_cons_ok_succ env args "python" ["python3", "py"] "" o hok hs]

/-- Witness for C8: a child that emits the invalid byte `0xFF` before `hi`
still has its output returned, with the replacement character. -/
theorem lossy_output_capture_witness :
    run_python env8 [] = .ok "�hi" ∧ utf8Lossy [255] = [replChar] := by
  constructor
  · have h := lossy_output_capture.1 env8 [] o8 rfl rfl
    exact h
  · have h := lossy_output_capture.2.1 ⟨255, by decide⟩ (by decide)
    exact h

/-- Counterexample to C5 as stated: the data-processing task does not trim;
with accepted output `x` plus a newline it returns the text untrimmed, so
"for every task kind the accepted output is trimmed" is false. -/
theorem facade_trim_counterexample :
    run_tabular_processor app5 "f" "a" none none = .ok "x\n" ∧
    trimS "x\n" = "x" ∧ ("x\n" : String) ≠ "x" := by
  exact ⟨rfl, rfl, by decide⟩

/-- Exactness of trimming: the original text is the trimmed text surrounded
by (only) whitespace, so internal structure is preserved. -/
lemma trim_decomposition (s : String) :
    ∃ a b : List Char, s.data = a ++ (trimS s).data ++ b ∧
      (∀ c ∈ a, isWS c = true) ∧ (∀ c ∈ b, isWS c = true) := by
  refine ⟨s.data.takeWhile isWS,
    ((s.data.dropWhile isWS).reverse.takeWhile isWS).reverse, ?_, ?_, ?_⟩
  · show s.data = _ ++ trimL s.data ++ _
    unfold trimL
    conv_lhs => rw [← List.takeWhile_append_dropWhile isWS s.data]
    rw [List.append_assoc]
    congr 1
    conv_lhs => rw [← List.reverse_reverse (s.data.dropWhile isWS),
      ← List.takeWhile_append_dropWhile isWS (s.data.dropWhile isWS).reverse,
      List.reverse_append]
  · intro c hc; exact List.mem_takeWhile_imp hc
  · intro c hc; exact List.mem_takeWhile_imp (List.mem_reverse.mp hc)

/-- C5 (amended): the GPU, system-info, dependency and prediction commands
return the accepted output trimmed of exactly the leading and trailing
whitespace (internal structure preserved), while the data-processing command
returns the accepted output unmodified. -/
theorem facade_trim_amended :
    (∀ (app : App) (dir s : String), app.resource_dir = .ok dir →
      run_python app.env [check_gpu_script dir] = .ok s →
      run_check_gpu app = .ok (trimS s)) ∧
    (∀ (app : App) (dir s : String), app.resource_dir = .ok dir →
      run_python app.env [system_info_script dir] = .ok s →
      get_system_info app = .ok (trimS s)) ∧
    (∀ (app : App) (s : String),
      run_python app.env ["-c", depScript] = .ok s →
      check_dependencies app = .ok (trimS s)) ∧
    (∀ (app : App) (image mp mt cl dir s : String), app.resource_dir = .ok dir →
      run_python app.env (predict_args (predict_script dir) image mp mt cl) = .ok s →
      run_prediction app image mp mt cl = .ok (trimS s)) ∧
    (∀ (app : App) (f a : String) (params outp : Option String) (dir s : String),
      app.resource_dir = .ok dir →
      run_python app.env (tabular_args (tabular_script dir) f a params outp) = .ok s →
      run_tabular_processor app f a params outp = .ok s) ∧
    (∀ s : String, ∃ a b : List Char, s.data = a ++ (trimS s).data ++ b ∧
      (∀ c ∈ a, isWS c = true) ∧ (∀ c ∈ b, isWS c = true)) := by
  refine ⟨?_, ?_, ?_, ?_, ?_, trim_decomposition⟩
  · intro app dir s hdir hrun; simp [run_check_gpu, hdir, hrun]
  · intro app dir s hdir hrun; simp [get_system_info, hdir, hrun]
  · intro app s hrun; simp [check_dependencies, hrun]
  · intro app image mp mt cl dir s hdir hrun; simp [run_prediction, hdir, hrun]
  · intro app f a params outp dir s hdir hrun
    simp [run_tabular_processor, hdir, hrun]

/-- Witness for the amended C5: `app5`'s interpreter prints `x` plus a
newline; the GPU probe trims it, the data-processing task does not. -/
theorem facade_trim_amended_witness :
    run_check_gpu app5 = .ok (trimS "x\n") ∧
    run_tabular_processor app5 "f" "a" none none = .ok "x\n" := by
  constructor
  · have h := facade_trim_amended.1 app5 "R" "x\n" rfl rfl
    exact h
  · have h := facade_trim_amended.2.2.2.2.1 app5 "f" "a" none none "R" "x\n" rfl rfl
    exact h

/-- Counterexample to C6 as stated: when the orchestrator rejects, the
data-processing command returns the orchestrator's error text completely
unchanged — no task-name label is prefixed — unlike the GPU probe. -/
theorem facade_label_counterexample :
    run_tabular_processor app6 "f" "a" none none = .error "boom" ∧
    run_python app6.env (tabular_args (tabular_script "R") "f" "a" none none) =
      .error "boom" ∧
    run_check_gpu app6 = .error "GPU detection failed: boom" := by
  exact ⟨rfl, rfl, rfl⟩

/-- C6 (amended): on rejection the GPU, system-info and prediction commands
return an error prefixed with their task label (`GPU detection failed: `,
`System info failed: `, `Prediction failed: `), while the data-processing
command propagates the orchestrator's error text unlabeled. -/
theorem facade_label_amended :
    (∀ (app : App) (dir e : String), app.resource_dir = .ok dir →
      run_python app.env [check_gpu_script dir] = .error e →
      run_check_gpu app = .error ("GPU detection failed: " ++ e)) ∧
    (∀ (app : App) (dir e : String), app.resource_dir = .ok dir →
      run_python app.env [system_info_script dir] = .error e →
      get_system_info app = .error ("System info failed: " ++ e)) ∧
    (∀ (app : App) (image mp mt cl dir e : String), app.resource_dir = .ok dir →
      run_python app.env (predict_args (predict_script dir) image mp mt cl) = .error e →
      run_prediction app image mp mt cl = .error ("Prediction failed: " ++ e)) ∧
    (∀ (app : App) (f a : String) (params outp : Option String) (dir e : String),
      app.resource_dir = .ok dir →
      run_python app.env (tabular_args (tabular_script dir) f a params outp) = .error e →
      run_tabular_processor app f a params outp = .error e) := by
  refine ⟨?_, ?_, ?_, ?_⟩
  · intro app dir e hdir hrun; simp [run_check_gpu, hdir, hrun]
  · intro app dir e hdir hrun; simp [get_system_info, hdir, hrun]
  · intro app image mp mt cl dir e hdir hrun; simp [run_prediction, hdir, hrun]
  · intro app f a params outp dir e hdir hrun
    simp [run_tabular_processor, hdir, hrun]

/-- Witness for the amended C6: with every candidate failing as `boom`, the
GPU probe labels the error and the data-processing task passes it through. -/
theorem facade_label_amended_witness :
    run_check_gpu app6 = .error ("GPU detection failed: " ++ "boom") ∧
    run_tabular_processor app6 "f" "a" none none = .error "boom" := by
  constructor
  · have h := facade_label_amended.1 app6 "R" "boom" rfl rfl
    exact h
  · have h := facade_label_amended.2.2.2 app6 "f" "a" none none "R" "boom" rfl rfl
    exact h

/- Lemmas about the prefix-stripping replace. -/

lemma stripFuel_succ_cons (n : Nat) (c : Char) (cs : List Char) :
    stripFuel (n + 1) (c :: cs) =
      if (c :: cs).take 4 = extPat then stripFuel n (cs.drop 3)
      else c :: stripFuel n cs := rfl

/-- The scan result does not depend on the fuel, as long as the fuel covers
the list length. -/
lemma stripFuel_congr (n : Nat) : ∀ (m : Nat) (l : List Char),
    l.length ≤ n → l.length ≤ m → stripFuel n l = stripFuel m l := by
  induction n with
  | zero =>
    intro m l hn _
    have hl : l = [] := List.eq_nil_of_length_eq_zero (Nat.le_zero.mp hn)
    subst hl
    cases m <;> rfl
  | succ n ih =>
    intro m l hn hm
    cases l with
    | nil => cases m <;> rfl
    | cons c cs =>
      cases m with
      | zero => simp at hm
      | succ m' =>
        rw [stripFuel_succ_cons, stripFuel_succ_cons]
        have hcs : cs.length ≤ n := by simpa using hn
        have hcs' : cs.length ≤ m' := by simpa using hm
        by_cases hc : (c :: cs).take 4 = extPat
        · rw [if_pos hc, if_pos hc]
          exact ih m' (cs.drop 3) (by rw [List.length_drop]; omega)
            (by rw [List.length_drop]; omega)
        · rw [if_neg hc, if_neg hc, ih m' cs hcs hcs']

/-- One unfolding step for the strip at its natural fuel. -/
lemma stripL_cons (c : Char) (cs : List Char) :
    stripL (c :: cs) =
      if (c :: cs).take 4 = extPat then stripL (cs.drop 3)
      else c :: stripL cs := by
  unfold stripL
  rw [show (c :: cs).length = cs.length + 1 from rfl, stripFuel_succ_cons]
  by_cases hc : (c :: cs).take 4 = extPat
  · rw [if_pos hc, if_pos hc]
    exact stripFuel_congr cs.length (cs.drop 3).length (cs.drop 3)
      (by rw [List.length_drop]; omega) le_rfl
  · rw [if_neg hc, if_neg hc]

/-- If the first four characters match the pattern, the character at index 2
is a question mark. -/
lemma take4_extPat_get2 (l : List Char) (h : l.take 4 = extPat) :
    l.get? 2 = some '?' := by
  match l with
  | [] => simp [extPat] at h
  | [c1] => simp [List.take, extPat] at h
  | [c1, c2] => simp [List.take, extPat] at h
  | c1 :: c2 :: c3 :: t3 =>
    simp [List.take, extPat] at h
    simp [List.get?, h.2.2.1]

/-- A list without a question mark never starts with the pattern. -/
lemma noQ_take4_ne (l : List Char) (h : ∀ c ∈ l, c ≠ '?') :
    ¬l.take 4 = extPat := by
  intro he
  exact h '?' (List.get?_mem (take4_extPat_get2 l he)) rfl

/-- The strip leaves a question-mark-free text unchanged. -/
lemma stripL_noQ (l : List Char) (h : ∀ c ∈ l, c ≠ '?') : stripL l = l := by
  induction l with
  | nil => rfl
  | cons c cs ih =>
    rw [stripL_cons, if_neg (noQ_take4_ne _ h),
      ih (fun c' hc' => h c' (List.mem_cons_of_mem _ hc'))]

/-- An occurrence of the pattern at the front is removed. -/
lemma stripL_pat_append (r : List Char) : stripL (extPat ++ r) = stripL r := by
  show stripL ('\\' :: ('\\' :: '?' :: '\\' :: r)) = stripL r
  rw [stripL_cons,
    if_pos (show List.take 4 ('\\' :: '\\' :: '?' :: '\\' :: r) = extPat from rfl)]
  rfl

/-- An occurrence of the pattern anywhere after a question-mark-free part is
removed, and the scan continues after it. -/
lemma stripL_append_pat (a : List Char) (r : List Char) (ha : ∀ c ∈ a, c ≠ '?') :
    stripL (a ++ (extPat ++ r)) = a ++ stripL r := by
  induction a with
  | nil => simpa using stripL_pat_append r
  | cons c a' ih =>
    have hcond : ¬(c :: (a' ++ (extPat ++ r))).take 4 = extPat := by
      intro he
      have h2 := take4_extPat_get2 _ he
      cases a' with
      | nil =>
        have hv : (c :: (([] : List Char) ++ (extPat ++ r))).get? 2 = some '\\' := rfl
        rw [hv] at h2
        exact absurd (Option.some.inj h2) (by decide)
      | cons d a'' =>
        cases a'' with
        | nil =>
          have hv : (c :: (([d] : List Char) ++ (extPat ++ r))).get? 2 = some '\\' := rfl
          rw [hv] at h2
          exact absurd (Option.some.inj h2) (by decide)
        | cons e a''' =>
          have hv : (c :: ((d :: e :: a''') ++ (extPat ++ r))).get? 2 = some e := rfl
          rw [hv] at h2
          exact ha e (by simp) (Option.some.inj h2)
    rw [List.cons_append, stripL_cons, if_neg hcond,
      ih (fun c' hc' => ha c' (List.mem_cons_of_mem _ hc'))]
    rfl

/-- Every joining occurrence of the pattern between question-mark-free
segments is removed. -/
lemma stripL_joinWith (parts : List (List Char))
    (h : ∀ p ∈ parts, ∀ c ∈ p, c ≠ '?') :
    stripL (joinWith parts) = flatCat parts := by
  induction parts with
  | nil => rfl
  | cons p ps ih =>
    cases ps with
    | nil =>
      show stripL p = flatCat [p]
      rw [stripL_noQ p (h p (by simp))]
      simp [flatCat]
    | cons q ps' =>
      show stripL (p ++ (extPat ++ joinWith (q :: ps'))) = p ++ flatCat (q :: ps')
      rw [stripL_append_pat p _ (h p (by simp)),
        ih (fun p' hp' => h p' (List.mem_cons_of_mem _ hp'))]

/-- C10: every script-invoking façade passes as first argument the resolved
script path with the replace applied; and that replace removes every
occurrence of the four-character sequence `\\?\` anywhere in the string, not
only as a leading prefix. -/
theorem strip_extended_prefix :
    (∀ (dir file action : String) (params outp : Option String),
      (tabular_args (tabular_script dir) file action params outp).head? =
        some (stripExt (joinPath (joinPath dir "python_backend") "tabular_processor.py"))) ∧
    (∀ dir : String, check_gpu_script dir =
      stripExt (joinPath (joinPath dir "python_backend") "check_gpu.py")) ∧
    (∀ dir : String, system_info_script dir =
      stripExt (joinPath (joinPath dir "python_backend") "system_info.py")) ∧
    (∀ dir image mp mt cl : String,
      (predict_args (predict_script dir) image mp mt cl).head? =
        some (stripExt (joinPath (joinPath dir "python_backend") "predict.py"))) ∧
    (∀ parts : List (List Char), (∀ p ∈ parts, ∀ c ∈ p, c ≠ '?') →
      stripExt ⟨joinWith parts⟩ = ⟨flatCat parts⟩) := by
  refine ⟨fun _ _ _ _ _ => rfl, fun _ => rfl, fun _ => rfl, fun _ _ _ _ _ => rfl, ?_⟩
  intro parts h
  show (⟨stripL (joinWith parts)⟩ : String) = ⟨flatCat parts⟩
  rw [stripL_joinWith parts h]

/-- Witness for C10: a string with the sequence occurring twice in the
middle has both occurrences removed. -/
theorem strip_extended_prefix_witness :
    stripExt "a\\\\?\\b\\\\?\\c" = "abc" := by
  have h := strip_extended_prefix.2.2.2.2 [['a'], ['b'], ['c']] (by decide)
  exact h

end EPOQ
